import Mathlib

/-!
# Verification of the steampipe-plugin-gitlab core logic

A shallow embedding, in Lean 4, of the core logic of the
`steampipe-plugin-gitlab` repository: connection resolution
(`connect`, `isGitlabCloud` in `gitlab/utils.go`), the transform functions
(`isoTimeTransform`, `parseAccessLevel`, `parseAssignees`), the predicate
translators (`addOptionalIssueQuals`, `addOptionalProjectIssueQuals`), and
the paginated list handlers (`listProjects`, `listIssues`, `listAllIssues`,
`listProjectIssues`).

Go values of type `*T` are embedded as `Option T`; the Go zero string is the
empty string; `os.Getenv` of an unset variable is the empty string, so the
environment is a pair of plain strings.  Functions that in Go return
`(T, error)` are embedded as `Except String T`.  The upstream GitLab client
(out of scope of the repository) is a parameter: each list handler takes the
upstream endpoint as a function from request options to a page response, and
the embedding records the sequence of upstream requests the handler makes so
that theorems can speak about the calls issued, not only the rows streamed.
-/

/-- Connection-scoped configuration (`gitlab.go` / `connection_config`):
both fields are optional (`*string` in Go). -/
structure GitlabConfig where
  baseUrl : Option String
  token : Option String
deriving Repr, DecidableEq

/-- The process environment as read by `connect`: `os.Getenv("GITLAB_ADDR")`
and `os.Getenv("GITLAB_TOKEN")`; an unset variable reads as `""`. -/
structure Env where
  gitlabAddr : String
  gitlabToken : String
deriving Repr, DecidableEq

/-- The authenticated API client constructed by `connect`.  The third-party
constructor `api.NewClient(token, api.WithBaseURL(baseUrl))` is out of scope
of the repository and performs no network call; it is embedded as a plain
record of the two values handed to it. -/
structure Client where
  baseUrl : String
  token : String
deriving Repr, DecidableEq

/-- Error message of `connect` for a missing base address
(`gitlab/utils.go:31`). -/
def baseUrlErrMsg : String :=
  "GitLab Base Address must be set either in GITLAB_ADDR env var or in connection config file"

/-- Error message of `connect` for a missing token (`gitlab/utils.go:34`). -/
def tokenErrMsg : String :=
  "GitLab Private/Personal Access Token must be set either in GITLAB_TOKEN env var or in connection config file"

/-- Embedding of `connect` (`gitlab/utils.go:15-43`): read `GITLAB_ADDR` / `GITLAB_TOKEN`
from the environment, overwrite each with the connection-config value when
that is non-nil, fail on an empty base address, then on an empty token, and
otherwise build the client.  (The Go guard `&gitlabConfig != nil` on a local
variable is always true and drops out of the embedding.) -/
def connect (env : Env) (cfg : GitlabConfig) : Except String Client :=
  let baseUrl := match cfg.baseUrl with
    | some u => u
    | none => env.gitlabAddr
  let token := match cfg.token with
    | some t => t
    | none => env.gitlabToken
  if baseUrl = "" then .error baseUrlErrMsg
  else if token = "" then .error tokenErrMsg
  else .ok { baseUrl := baseUrl, token := token }

/-- Constant `GitlabCloudApiUrl` (`gitlab_issue` table file): the hosted multi-tenant
endpoint address. -/
def GitlabCloudApiUrl : String := "https://gitlab.com/api/v4"

/-- Embedding of `isGitlabCloud` (`gitlab/utils.go:81-91`): true when the
connection-config base URL is present and equals `GitlabCloudApiUrl`.
Note: the function inspects only the connection config, not the
`GITLAB_ADDR` environment variable. -/
def isGitlabCloud (cfg : GitlabConfig) : Bool :=
  match cfg.baseUrl with
  | some u => u = GitlabCloudApiUrl
  | none => false

/-- The resolved base address, following the spec's words: "the
connection-config base URL when present, otherwise the GITLAB_ADDR
environment value".  This is also the address `connect` resolves.  Stated
separately so that `isGitlabCloud` can be compared against it. -/
def specResolvedBaseUrl (env : Env) (cfg : GitlabConfig) : String :=
  match cfg.baseUrl with
  | some u => u
  | none => env.gitlabAddr

/-- Embedding of `parseAccessLevel` (`gitlab/utils.go:60-79`): fixed label per access
level code, defaulting to "No Permissions". -/
def parseAccessLevel (input : Int) : String :=
  if input = 0 then "No Permissions"
  else if input = 5 then "Minimal Access"
  else if input = 10 then "Guest"
  else if input = 20 then "Reporter"
  else if input = 30 then "Developer"
  else if input = 40 then "Maintainer"
  else if input = 50 then "Owner"
  else "No Permissions"

/-! ## Dates and the `isoTimeTransform` transform

`api.ISOTime` is a date-only value; its `String()` renders "YYYY-MM-DD"
(Go layout `2006-01-02`, zero-padded fields).  `isoTimeTransform`
(`gitlab/utils.go:51-57`) returns null on a nil input and otherwise feeds
that rendering to `time.Parse("2006-01-02", x)`, which yields midnight UTC
of the parsed date, validating month and day ranges. -/

/-- A calendar date, the payload of `api.ISOTime`. -/
structure ISOTime where
  year : Nat
  month : Nat
  day : Nat
deriving Repr, DecidableEq

/-- A point in time as produced by Go `time.Parse` with a date-only layout:
the clock fields are zero and the location is UTC. -/
structure Timestamp where
  year : Nat
  month : Nat
  day : Nat
  hour : Nat
  minute : Nat
  second : Nat
  zone : String
deriving Repr, DecidableEq

/-- The digit character for `n % 10`. -/
def digitChar10 (n : Nat) : Char :=
  Char.ofNat (48 + n % 10)

/-- The numeric value of a digit character. -/
def digitVal (c : Char) : Nat :=
  c.toNat - 48

/-- Zero-padded fixed-width decimal rendering, most significant digit
first: Go's `%0*d` for values below `10 ^ w`. -/
def renderDigits : Nat → Nat → List Char
  | 0, _ => []
  | w + 1, n => digitChar10 (n / 10 ^ w) :: renderDigits w n

/-- Rendering of `ISOTime.String()`: render as "YYYY-MM-DD" with widths 4, 2, 2. -/
def ISOTime.render (t : ISOTime) : List Char :=
  renderDigits 4 t.year ++ ('-' :: (renderDigits 2 t.month ++ ('-' :: renderDigits 2 t.day)))

/-- Read exactly `w` digit characters, accumulating their value. -/
def parseFixedAux (acc : Nat) : Nat → List Char → Option (Nat × List Char)
  | 0, cs => some (acc, cs)
  | w + 1, [] => (fun _ => none) w
  | w + 1, c :: cs =>
      if c.isDigit then parseFixedAux (acc * 10 + digitVal c) w cs else none

/-- Whether `year` is a leap year (Go `isLeap`). -/
def isLeapYear (y : Nat) : Bool :=
  y % 4 = 0 && (y % 100 ≠ 0 || y % 400 = 0)

/-- Days in a month (Go `daysIn`); `m` is 1-based and assumed in 1..12. -/
def daysInMonth (y m : Nat) : Nat :=
  if m = 2 then (if isLeapYear y then 29 else 28)
  else if m = 4 ∨ m = 6 ∨ m = 9 ∨ m = 11 then 30
  else 31

/-- Go `time.Parse("2006-01-02", s)`: four year digits, '-', two month
digits, '-', two day digits, nothing left over; month must be 1..12 and day
1..`daysInMonth`; on success the result is midnight UTC of that date. -/
def timeParseDateOnly (s : List Char) : Except String Timestamp :=
  match parseFixedAux 0 4 s with
  | none => .error "parsing time: cannot parse year"
  | some (y, rest) =>
    match rest with
    | '-' :: rest =>
      match parseFixedAux 0 2 rest with
      | none => .error "parsing time: cannot parse month"
      | some (m, rest) =>
        match rest with
        | '-' :: rest =>
          match parseFixedAux 0 2 rest with
          | none => .error "parsing time: cannot parse day"
          | some (d, rest) =>
            if rest ≠ [] then .error "parsing time: extra text"
            else if ¬ (1 ≤ m ∧ m ≤ 12) then .error "parsing time: month out of range"
            else if ¬ (1 ≤ d ∧ d ≤ daysInMonth y m) then .error "parsing time: day out of range"
            else .ok { year := y, month := m, day := d,
                       hour := 0, minute := 0, second := 0, zone := "UTC" }
        | _ => .error "parsing time: expected dash before day"
    | _ => .error "parsing time: expected dash before month"

/-- Embedding of `isoTimeTransform` (`gitlab/utils.go:51-57`): a nil input yields a null
output with no error; otherwise the `ISOTime` is rendered with `String()`
and re-parsed with `time.Parse("2006-01-02", x)`, whose result (or error) is
returned. -/
def isoTimeTransform (input : Option ISOTime) : Except String (Option Timestamp) :=
  match input with
  | none => .ok none
  | some t => (timeParseDateOnly t.render).map some

/-! ## The `parseAssignees` transform -/

/-- The `api.IssueAssignee` record, restricted to the field the transform
reads. -/
structure IssueAssignee where
  username : String
deriving Repr, DecidableEq

/-- A Go slice: `none` is the nil slice (which serializes as null),
`some l` a non-nil slice with elements `l`.  `append` on the nil slice
yields a non-nil slice. -/
def goAppend (s : Option (List α)) (x : α) : Option (List α) :=
  match s with
  | none => some [x]
  | some l => some (l ++ [x])

/-- Embedding of `parseAssignees` (issue table file): nil input yields null; otherwise
start from the nil slice `var output []string` and append each assignee's
username in order.  A zero-length (but non-nil) input never appends, so the
nil slice — null, not an empty sequence — is returned.  The error result is
always nil. -/
def parseAssignees (input : Option (List IssueAssignee)) :
    Except String (Option (List String)) :=
  match input with
  | none => .ok none
  | some assignees =>
    .ok (assignees.foldl (fun output a => goAppend output a.username) none)

/-! ## Query qualifiers (host-supplied equality predicates) -/

/-- A `proto.QualValue`: a oneof of the value kinds the plugin reads.  The
protobuf getters return the zero value when the oneof holds another kind. -/
inductive QualValue where
  | ofString (s : String)
  | ofInt (i : Int)
  | ofBool (b : Bool)
deriving Repr, DecidableEq

/-- Getter `GetStringValue`: the string payload, or `""`. -/
def QualValue.getStringValue : QualValue → String
  | .ofString s => s
  | _ => ""

/-- Getter `GetInt64Value`: the integer payload, or `0`. -/
def QualValue.getInt64Value : QualValue → Int
  | .ofInt i => i
  | _ => 0

/-- Getter `GetBoolValue`: the boolean payload, or `false`. -/
def QualValue.getBoolValue : QualValue → Bool
  | .ofBool b => b
  | _ => false

/-- The qual map `d.OptionalKeyColumnQuals`: a map from column name to qual value;
`none` embeds the Go nil lookup `q["k"] == nil`. -/
def Quals : Type := String → Option QualValue

/-- Embedding of `api.ListIssuesOptions`, restricted to the fields the plugin touches:
the embedded `ListOptions` page fields, the scope, and the filters set by
`addOptionalIssueQuals`.  Go zero value: all pointers nil, page fields 0. -/
structure ListIssuesOptions where
  scope : Option String := none
  assigneeUsername : Option String := none
  assigneeID : Option Int := none
  authorID : Option Int := none
  confidential : Option Bool := none
  search : Option String := none
  page : Nat := 0
  perPage : Nat := 0
deriving Repr, DecidableEq

/-- Embedding of `api.ListProjectIssuesOptions`, restricted to the fields the plugin
touches; a distinct type in the upstream library, with the same shape. -/
structure ListProjectIssuesOptions where
  scope : Option String := none
  assigneeUsername : Option String := none
  assigneeID : Option Int := none
  authorID : Option Int := none
  confidential : Option Bool := none
  search : Option String := none
  page : Nat := 0
  perPage : Nat := 0
deriving Repr, DecidableEq

/-- Embedding of `api.ListProjectsOptions`, restricted to the embedded `ListOptions`
page fields, the only ones `listProjects` sets. -/
structure ListProjectsOptions where
  page : Nat := 0
  perPage : Nat := 0
deriving Repr, DecidableEq

/-- Embedding of `addOptionalIssueQuals` (issue table file): copy each supported
equality qual into the corresponding upstream filter field; the `author`
(username) qual is commented out in the source and sets nothing.  Logging
is the only other effect and drops out of the embedding. -/
def addOptionalIssueQuals (opts : ListIssuesOptions) (q : Quals) : ListIssuesOptions :=
  let opts := match q "assignee" with
    | some v => { opts with assigneeUsername := some v.getStringValue }
    | none => opts
  let opts := match q "assignee_id" with
    | some v => { opts with assigneeID := some v.getInt64Value }
    | none => opts
  let opts := match q "author_id" with
    | some v => { opts with authorID := some v.getInt64Value }
    | none => opts
  let opts := match q "confidential" with
    | some v => { opts with confidential := some v.getBoolValue }
    | none => opts
  let opts := match q "search_string" with
    | some v => { opts with search := some v.getStringValue }
    | none => opts
  opts

/-- Embedding of `addOptionalProjectIssueQuals` (issue table file): same translation as
`addOptionalIssueQuals`, for the per-project options type. -/
def addOptionalProjectIssueQuals (opts : ListProjectIssuesOptions) (q : Quals) :
    ListProjectIssuesOptions :=
  let opts := match q "assignee" with
    | some v => { opts with assigneeUsername := some v.getStringValue }
    | none => opts
  let opts := match q "assignee_id" with
    | some v => { opts with assigneeID := some v.getInt64Value }
    | none => opts
  let opts := match q "author_id" with
    | some v => { opts with authorID := some v.getInt64Value }
    | none => opts
  let opts := match q "confidential" with
    | some v => { opts with confidential := some v.getBoolValue }
    | none => opts
  let opts := match q "search_string" with
    | some v => { opts with search := some v.getStringValue }
    | none => opts
  opts

/-! ## Paginated list handlers

Each Go list handler loops: call the upstream endpoint, stream every item
of the returned page, stop when the response's `NextPage` is `0`, otherwise
set `opt.Page = resp.NextPage` and repeat.  The upstream endpoint is a
parameter (a pure function from request to `Except` response); the
embedding threads a fuel argument because the Go loop has no termination
guarantee of its own, and returns the list of upstream requests issued, the
items streamed (in streaming order), and how the loop ended. -/

/-- A row of `gitlab_project`; the handlers treat it opaquely. -/
structure Project where
  id : Int
deriving Repr, DecidableEq

/-- A row of `gitlab_issue`; the handlers treat it opaquely. -/
structure Issue where
  id : Int
deriving Repr, DecidableEq

/-- One page of an upstream list response: the items of the page and the
`X-Next-Page` indicator (`resp.NextPage`, `0` when there is no next page). -/
structure PageResp (ι : Type) where
  items : List ι
  nextPage : Nat
deriving Repr, DecidableEq

/-- How a list handler invocation ended: `done` (the loop saw next-page 0
and the handler returned nil, nil), `failed e` (the handler returned the
error `e`), or `outOfFuel` (the embedding's fuel ran out with the loop
still running). -/
inductive RunOutcome where
  | done
  | failed (e : String)
  | outOfFuel
deriving Repr, DecidableEq

/-- The observable behavior of one list-handler invocation: every upstream
request issued (in order), every item streamed to the sink (in order), and
the outcome. -/
structure ListRun (ρ ι : Type) where
  requests : List ρ
  streamed : List ι
  outcome : RunOutcome
deriving Repr, DecidableEq

/-- The pagination loop of `listProjects`: call
`conn.Projects.ListProjects(opt)`, stream each project, stop on
`resp.NextPage == 0`, else `opt.Page = resp.NextPage`. -/
def listProjectsLoop (srv : ListProjectsOptions → Except String (PageResp Project))
    (opt : ListProjectsOptions) : Nat → ListRun ListProjectsOptions Project
  | 0 => ⟨[], [], .outOfFuel⟩
  | fuel + 1 =>
    match srv opt with
    | .error e => ⟨[opt], [], .failed e⟩
    | .ok resp =>
      if resp.nextPage = 0 then ⟨[opt], resp.items, .done⟩
      else
        let rest := listProjectsLoop srv { opt with page := resp.nextPage } fuel
        ⟨opt :: rest.requests, resp.items ++ rest.streamed, rest.outcome⟩

/-- Embedding of `listProjects` (project table file): connect, then page through
`ListProjects` starting from `Page: 1, PerPage: 50`. -/
def listProjects (env : Env) (cfg : GitlabConfig)
    (srv : ListProjectsOptions → Except String (PageResp Project))
    (fuel : Nat) : ListRun ListProjectsOptions Project :=
  match connect env cfg with
  | .error e => ⟨[], [], .failed e⟩
  | .ok _ => listProjectsLoop srv { page := 1, perPage := 50 } fuel

/-- An upstream call made by the issue handlers: either the instance-wide
`conn.Issues.ListIssues(opt)` or the per-project
`conn.Issues.ListProjectIssues(project_id, opt)`. -/
inductive IssueApiCall where
  | instanceWide (opts : ListIssuesOptions)
  | perProject (pid : Int) (opts : ListProjectIssuesOptions)
deriving Repr, DecidableEq

/-- The two upstream issue list endpoints consumed by the handlers. -/
structure IssuesApi where
  listIssuesEp : ListIssuesOptions → Except String (PageResp Issue)
  listProjectIssuesEp : Int → ListProjectIssuesOptions → Except String (PageResp Issue)

/-- The pagination loop of `listAllIssues`: call
`conn.Issues.ListIssues(opt)`, stream each issue, stop on
`resp.NextPage == 0`, else `opt.Page = resp.NextPage`. -/
def listAllIssuesLoop (api : IssuesApi) (opt : ListIssuesOptions) :
    Nat → ListRun IssueApiCall Issue
  | 0 => ⟨[], [], .outOfFuel⟩
  | fuel + 1 =>
    match api.listIssuesEp opt with
    | .error e => ⟨[.instanceWide opt], [], .failed e⟩
    | .ok resp =>
      if resp.nextPage = 0 then ⟨[.instanceWide opt], resp.items, .done⟩
      else
        let rest := listAllIssuesLoop api { opt with page := resp.nextPage } fuel
        ⟨.instanceWide opt :: rest.requests, resp.items ++ rest.streamed, rest.outcome⟩

/-- Embedding of `listAllIssues` (issue table file): connect, build options with scope
"all" and `Page: 1, PerPage: 50`, apply `addOptionalIssueQuals`, then page
through `ListIssues`. -/
def listAllIssues (env : Env) (cfg : GitlabConfig) (q : Quals) (api : IssuesApi)
    (fuel : Nat) : ListRun IssueApiCall Issue :=
  match connect env cfg with
  | .error e => ⟨[], [], .failed e⟩
  | .ok _ =>
    let opt : ListIssuesOptions := { scope := some "all", page := 1, perPage := 50 }
    let opt := addOptionalIssueQuals opt q
    listAllIssuesLoop api opt fuel

/-- The pagination loop of `listProjectIssues`.  Faithful to the source:
each iteration calls `conn.Issues.ListProjectIssues(project_id,
&api.ListProjectIssuesOptions{})` — a fresh zero-value options struct, not
`opt` — then streams, stops on `resp.NextPage == 0`, and otherwise writes
`opt.Page = resp.NextPage` into the unused `opt`. -/
def listProjectIssuesLoop (api : IssuesApi) (pid : Int)
    (opt : ListProjectIssuesOptions) : Nat → ListRun IssueApiCall Issue
  | 0 => ⟨[], [], .outOfFuel⟩
  | fuel + 1 =>
    match api.listProjectIssuesEp pid {} with
    | .error e => ⟨[.perProject pid {}], [], .failed e⟩
    | .ok resp =>
      if resp.nextPage = 0 then ⟨[.perProject pid {}], resp.items, .done⟩
      else
        let rest := listProjectIssuesLoop api pid { opt with page := resp.nextPage } fuel
        ⟨.perProject pid {} :: rest.requests, resp.items ++ rest.streamed, rest.outcome⟩

/-- Embedding of `listProjectIssues` (issue table file): connect, build options with
scope "all" and `Page: 1, PerPage: 50`, apply
`addOptionalProjectIssueQuals`, read `project_id` from the quals (returning
nil, nil when absent), then loop — passing a fresh empty options value to
the upstream call each iteration. -/
def listProjectIssues (env : Env) (cfg : GitlabConfig) (q : Quals) (api : IssuesApi)
    (fuel : Nat) : ListRun IssueApiCall Issue :=
  match connect env cfg with
  | .error e => ⟨[], [], .failed e⟩
  | .ok _ =>
    let opt : ListProjectIssuesOptions := { scope := some "all", page := 1, perPage := 50 }
    let opt := addOptionalProjectIssueQuals opt q
    match q "project_id" with
    | none => ⟨[], [], .done⟩
    | some v => listProjectIssuesLoop api (v.getInt64Value) opt fuel

/-- Error message of the hosted-deployment guard in `listIssues` (the Go
source concatenates two string literals; typos preserved). -/
def cloudGuardErrMsg : String :=
  "When using this table with gitlab cloud, 'List' call requires an '=' qual for " ++
  "one ore more of the following columns:  assignee, assignee_id, author_id, project_id"

/-- Embedding of `listIssues` (issue table file): if none of the `assignee`,
`assignee_id`, `author_id`, `project_id` quals is present and
`isGitlabCloud` holds, fail with `cloudGuardErrMsg` before any upstream
call; otherwise route to `listProjectIssues` when a `project_id` qual is
present, else to `listAllIssues`. -/
def listIssues (env : Env) (cfg : GitlabConfig) (q : Quals) (api : IssuesApi)
    (fuel : Nat) : ListRun IssueApiCall Issue :=
  if q "assignee" = none ∧ q "assignee_id" = none ∧ q "author_id" = none ∧
      q "project_id" = none ∧ isGitlabCloud cfg then
    ⟨[], [], .failed cloudGuardErrMsg⟩
  else if q "project_id" ≠ none then
    listProjectIssues env cfg q api fuel
  else
    listAllIssues env cfg q api fuel

/-! ## Concrete fixtures used by witnesses and counterexamples -/

/-- The token resolved by `connect`, following the spec's words: the
connection-config token when present, otherwise the `GITLAB_TOKEN`
environment value. -/
def specResolvedToken (env : Env) (cfg : GitlabConfig) : String :=
  match cfg.token with
  | some t => t
  | none => env.gitlabToken

/-- An empty qual map: no equality predicate supplied. -/
def qualsNone : Quals := fun _ => none

/-- A qual map supplying only `project_id = 42`. -/
def qualsProject42 : Quals :=
  fun k => if k = "project_id" then some (.ofInt 42) else none

/-- A qual map supplying only `assignee = "alice"`. -/
def qualsAssigneeAlice : Quals :=
  fun k => if k = "assignee" then some (.ofString "alice") else none

/-- Environment pointing at a self-hosted deployment. -/
def envSelfHosted : Env := ⟨"https://gitlab.example.com/api/v4", "token123"⟩

/-- Environment pointing at the hosted multi-tenant deployment. -/
def envHosted : Env := ⟨"https://gitlab.com/api/v4", "token123"⟩

/-- Connection config with neither field set. -/
def cfgEmpty : GitlabConfig := ⟨none, none⟩

/-- Connection config whose base URL is the hosted endpoint. -/
def cfgHosted : GitlabConfig := ⟨some GitlabCloudApiUrl, some "token123"⟩

/-- Successful responses of a three-page project listing, keyed by
requested page: 1 → next 2, 2 → next 3, 3 → next 0. -/
def respProjects : Nat → PageResp Project :=
  fun p => if p = 1 then ⟨[⟨1⟩, ⟨2⟩], 2⟩
    else if p = 2 then ⟨[⟨3⟩], 3⟩
    else if p = 3 then ⟨[⟨4⟩], 0⟩
    else ⟨[], 0⟩

/-- A three-page project list endpoint serving `respProjects`. -/
def srvProjectsPaged : ListProjectsOptions → Except String (PageResp Project) :=
  fun o => .ok (respProjects o.page)

/-- Successful responses of a three-page issue listing, keyed by requested
page, with page 0 answered like page 1 (as the upstream API does). -/
def respIssues : Nat → PageResp Issue :=
  fun p => if p = 2 then ⟨[⟨3⟩], 3⟩
    else if p = 3 then ⟨[⟨4⟩], 0⟩
    else ⟨[⟨1⟩, ⟨2⟩], 2⟩

/-- An issue API whose two endpoints both serve `respIssues` keyed on the
requested page (the per-project endpoint ignores the project id). -/
def apiIssuesPaged : IssuesApi :=
  { listIssuesEp := fun o => .ok (respIssues o.page),
    listProjectIssuesEp := fun _ o => .ok (respIssues o.page) }

/-- An issue API answering every request with a single final page. -/
def apiIssuesOnePage : IssuesApi :=
  { listIssuesEp := fun _ => .ok ⟨[⟨1⟩], 0⟩,
    listProjectIssuesEp := fun _ _ => .ok ⟨[⟨1⟩], 0⟩ }

/-! ## Theorems -/

/-- Claim C2 counterexample: with no connection-config base URL and
`GITLAB_ADDR` set to the hosted endpoint, the resolved base address equals
the hosted endpoint yet `isGitlabCloud` returns `false` — so the predicate
is not determined by the resolved base address. -/
theorem isGitlabCloud_resolved_counterexample :
    specResolvedBaseUrl envHosted cfgEmpty = GitlabCloudApiUrl ∧
    isGitlabCloud cfgEmpty = false := ⟨rfl, rfl⟩

/-- Claim C2 (amended): `isGitlabCloud` returns `true` exactly when the
connection-config base URL is present and equals the hosted multi-tenant
endpoint URL; the `GITLAB_ADDR` environment value is never consulted. -/
theorem isGitlabCloud_spec (cfg : GitlabConfig) :
    isGitlabCloud cfg = true ↔ cfg.baseUrl = some GitlabCloudApiUrl := by
  cases h : cfg.baseUrl with
  | none => simp [isGitlabCloud, h]
  | some u => simp [isGitlabCloud, h]

/-- Claim C6: after the env/config merge (config value taken when present,
else the environment value), an empty merged base address fails with the
base-address message; otherwise an empty merged token fails with the
distinct token message; otherwise resolution succeeds, constructing the
client from the two merged values (no network call is modelled because
`connect` makes none). -/
theorem connect_spec (env : Env) (cfg : GitlabConfig) :
    (specResolvedBaseUrl env cfg = "" →
      connect env cfg = .error baseUrlErrMsg) ∧
    (specResolvedBaseUrl env cfg ≠ "" → specResolvedToken env cfg = "" →
      connect env cfg = .error tokenErrMsg) ∧
    (specResolvedBaseUrl env cfg ≠ "" → specResolvedToken env cfg ≠ "" →
      connect env cfg =
        .ok ⟨specResolvedBaseUrl env cfg, specResolvedToken env cfg⟩) ∧
    baseUrlErrMsg ≠ tokenErrMsg := by
  refine ⟨?_, ?_, ?_, by decide⟩ <;>
    · intros
      simp_all [connect, specResolvedBaseUrl, specResolvedToken]

/-- Witness for C6: a concrete run of each hypothesis-guarded branch. -/
theorem connect_spec_witness :
    connect ⟨"", "t"⟩ cfgEmpty = .error baseUrlErrMsg ∧
    connect ⟨"a", ""⟩ cfgEmpty = .error tokenErrMsg ∧
    connect envSelfHosted cfgHosted = .ok ⟨GitlabCloudApiUrl, "token123"⟩ :=
  ⟨(connect_spec ⟨"", "t"⟩ cfgEmpty).1 rfl,
   (connect_spec ⟨"a", ""⟩ cfgEmpty).2.1 (by decide) rfl,
   (connect_spec envSelfHosted cfgHosted).2.2.1 (by decide) (by decide)⟩

/-- Claim C9: `parseAccessLevel` maps each of the seven recognized codes to
its fixed label and every other integer to "No Permissions"; it is a total
function, so it never produces an error. -/
theorem parseAccessLevel_spec :
    parseAccessLevel 0 = "No Permissions" ∧
    parseAccessLevel 5 = "Minimal Access" ∧
    parseAccessLevel 10 = "Guest" ∧
    parseAccessLevel 20 = "Reporter" ∧
    parseAccessLevel 30 = "Developer" ∧
    parseAccessLevel 40 = "Maintainer" ∧
    parseAccessLevel 50 = "Owner" ∧
    ∀ n : Int, n ≠ 0 → n ≠ 5 → n ≠ 10 → n ≠ 20 → n ≠ 30 → n ≠ 40 → n ≠ 50 →
      parseAccessLevel n = "No Permissions" := by
  refine ⟨rfl, rfl, rfl, rfl, rfl, rfl, rfl, ?_⟩
  intro n h0 h5 h10 h20 h30 h40 h50
  simp [parseAccessLevel, h0, h5, h10, h20, h30, h40, h50]

/-- Witness for C9: the default branch at the concrete unrecognized
code 999. -/
theorem parseAccessLevel_spec_witness : parseAccessLevel 999 = "No Permissions" :=
  parseAccessLevel_spec.2.2.2.2.2.2.2 999 (by decide) (by decide) (by decide)
    (by decide) (by decide) (by decide) (by decide)

/-- Folding `goAppend` from a non-nil slice appends every username. -/
theorem foldl_goAppend (l : List IssueAssignee) (acc : List String) :
    l.foldl (fun o a => goAppend o a.username) (some acc) =
      some (acc ++ l.map IssueAssignee.username) := by
  induction l generalizing acc with
  | nil => simp
  | cons a t ih =>
    rw [show (a :: t).foldl (fun o x => goAppend o x.username) (some acc) =
          t.foldl (fun o x => goAppend o x.username) (some (acc ++ [a.username])) from rfl,
        ih]
    simp

/-- Claim C10: `parseAssignees` returns a null output for the non-null but
zero-length list input, exactly as for the null input (appending nothing to
the nil slice leaves it nil); a non-empty list yields the non-null username
sequence in order; and every input of the expected list type returns
without error. -/
theorem parseAssignees_spec :
    parseAssignees none = .ok none ∧
    parseAssignees (some []) = .ok none ∧
    (∀ l : List IssueAssignee, l ≠ [] →
      parseAssignees (some l) = .ok (some (l.map IssueAssignee.username))) ∧
    (∀ input : Option (List IssueAssignee), ∃ out, parseAssignees input = .ok out) := by
  refine ⟨rfl, rfl, ?_, ?_⟩
  · intro l hl
    cases l with
    | nil => exact absurd rfl hl
    | cons a t =>
      show Except.ok ((a :: t).foldl (fun o x => goAppend o x.username) none) = _
      rw [show (a :: t).foldl (fun o x => goAppend o x.username) none =
            t.foldl (fun o x => goAppend o x.username) (some [a.username]) from rfl,
          foldl_goAppend]
      simp
  · intro input
    cases input with
    | none => exact ⟨none, rfl⟩
    | some l => exact ⟨_, rfl⟩

/-- Witness for C10: the non-empty case at a concrete two-element list. -/
theorem parseAssignees_spec_witness :
    parseAssignees (some [⟨"alice"⟩, ⟨"bob"⟩]) = .ok (some ["alice", "bob"]) :=
  parseAssignees_spec.2.2.1 [⟨"alice"⟩, ⟨"bob"⟩] (by decide)

/-- Claim C7: `addOptionalIssueQuals` sets exactly the five natively
supported upstream filters, each only when its qual is present, leaves
every other option field (scope, page, page size) untouched, and ignores an
`author` (username) qual entirely — it is a total function, so no error is
produced. -/
theorem addOptionalIssueQuals_spec (opts : ListIssuesOptions) (q : Quals) :
    (addOptionalIssueQuals opts q =
      { opts with
        assigneeUsername := (match q "assignee" with
          | some v => some v.getStringValue
          | none => opts.assigneeUsername),
        assigneeID := (match q "assignee_id" with
          | some v => some v.getInt64Value
          | none => opts.assigneeID),
        authorID := (match q "author_id" with
          | some v => some v.getInt64Value
          | none => opts.authorID),
        confidential := (match q "confidential" with
          | some v => some v.getBoolValue
          | none => opts.confidential),
        search := (match q "search_string" with
          | some v => some v.getStringValue
          | none => opts.search) }) ∧
    (∀ v : Option QualValue,
      addOptionalIssueQuals opts (fun k => if k = "author" then v else q k) =
        addOptionalIssueQuals opts q) := by
  constructor
  · unfold addOptionalIssueQuals
    cases q "assignee" <;> cases q "assignee_id" <;> cases q "author_id" <;>
      cases q "confidential" <;> cases q "search_string" <;> rfl
  · intro v
    rfl

/-- A rendered digit is a digit character. -/
theorem digitChar10_isDigit (n : Nat) : (digitChar10 n).isDigit = true := by
  unfold digitChar10
  have hk : n % 10 < 10 := Nat.mod_lt _ (by norm_num)
  set k := n % 10 with hdef
  interval_cases k <;> decide

/-- Reading back a rendered digit recovers the value mod 10. -/
theorem digitVal_digitChar10 (n : Nat) : digitVal (digitChar10 n) = n % 10 := by
  unfold digitChar10 digitVal
  have hk : n % 10 < 10 := Nat.mod_lt _ (by norm_num)
  set k := n % 10 with hdef
  interval_cases k <;> decide

/-- Fixed-width rendering only sees the value modulo `10 ^ w`. -/
theorem renderDigits_mod (w : Nat) : ∀ n : Nat,
    renderDigits w (n % 10 ^ w) = renderDigits w n := by
  induction w with
  | zero => intro n; rfl
  | succ w ih =>
    intro n
    unfold renderDigits
    have hhead : n % 10 ^ (w + 1) / 10 ^ w % 10 = n / 10 ^ w % 10 := by
      rw [pow_succ, Nat.mod_mul_right_div_self]
      exact Nat.mod_mod_of_dvd _ (dvd_refl 10)
    have htail : n % 10 ^ (w + 1) % 10 ^ w = n % 10 ^ w :=
      Nat.mod_mod_of_dvd n ⟨10, by rw [pow_succ]⟩
    congr 1
    · unfold digitChar10
      congr 1
      omega
    · calc renderDigits w (n % 10 ^ (w + 1))
          = renderDigits w (n % 10 ^ (w + 1) % 10 ^ w) := (ih _).symm
        _ = renderDigits w (n % 10 ^ w) := by rw [htail]
        _ = renderDigits w n := ih n

/-- Parsing a fixed-width rendering recovers the rendered value. -/
theorem parseFixedAux_render (w : Nat) : ∀ (n acc : Nat) (rest : List Char),
    n < 10 ^ w →
    parseFixedAux acc w (renderDigits w n ++ rest) = some (acc * 10 ^ w + n, rest) := by
  induction w with
  | zero =>
    intro n acc rest hn
    have : n = 0 := by omega
    subst this
    simp [renderDigits, parseFixedAux]
  | succ w ih =>
    intro n acc rest hn
    have hdiv : n / 10 ^ w < 10 := Nat.div_lt_of_lt_mul (by rw [← pow_succ]; exact hn)
    rw [show renderDigits (w + 1) n = digitChar10 (n / 10 ^ w) :: renderDigits w n from rfl]
    rw [show renderDigits w n = renderDigits w (n % 10 ^ w) from (renderDigits_mod w n).symm]
    rw [List.cons_append]
    rw [show parseFixedAux acc (w + 1)
          (digitChar10 (n / 10 ^ w) :: (renderDigits w (n % 10 ^ w) ++ rest)) =
        if (digitChar10 (n / 10 ^ w)).isDigit then
          parseFixedAux (acc * 10 + digitVal (digitChar10 (n / 10 ^ w))) w
            (renderDigits w (n % 10 ^ w) ++ rest)
        else none from rfl]
    rw [digitChar10_isDigit, if_pos rfl, digitVal_digitChar10]
    rw [Nat.mod_eq_of_lt hdiv]
    rw [ih (n % 10 ^ w) _ rest (Nat.mod_lt _ (Nat.pos_pow_of_pos w (by norm_num)))]
    have hdm : 10 ^ w * (n / 10 ^ w) + n % 10 ^ w = n := Nat.div_add_mod n (10 ^ w)
    have harith : (acc * 10 + n / 10 ^ w) * 10 ^ w + n % 10 ^ w = acc * 10 ^ (w + 1) + n := by
      calc (acc * 10 + n / 10 ^ w) * 10 ^ w + n % 10 ^ w
          = acc * (10 ^ w * 10) + (10 ^ w * (n / 10 ^ w) + n % 10 ^ w) := by ring
        _ = acc * 10 ^ (w + 1) + n := by rw [hdm, pow_succ]
    rw [harith]

/-- The value of `daysInMonth` never exceeds 31. -/
theorem daysInMonth_le_31 (y m : Nat) : daysInMonth y m ≤ 31 := by
  unfold daysInMonth
  split_ifs <;> norm_num

/-- Parsing the rendering of an in-range date yields midnight UTC of that
date. -/
theorem timeParseDateOnly_render (t : ISOTime) (hy : t.year ≤ 9999)
    (hm1 : 1 ≤ t.month) (hm2 : t.month ≤ 12) (hd1 : 1 ≤ t.day)
    (hd2 : t.day ≤ daysInMonth t.year t.month) :
    timeParseDateOnly t.render =
      .ok ⟨t.year, t.month, t.day, 0, 0, 0, "UTC"⟩ := by
  obtain ⟨y, m, d⟩ := t
  simp only at hy hm1 hm2 hd1 hd2
  have hy' : y < 10 ^ 4 := by norm_num; omega
  have hm' : m < 10 ^ 2 := by norm_num; omega
  have hd' : d < 10 ^ 2 := by
    have := daysInMonth_le_31 y m
    norm_num
    omega
  unfold ISOTime.render timeParseDateOnly
  simp only
  rw [show renderDigits 2 d = renderDigits 2 d ++ [] from (List.append_nil _).symm]
  rw [parseFixedAux_render 4 y 0 _ hy']
  simp only [Nat.zero_mul, Nat.zero_add]
  rw [parseFixedAux_render 2 m 0 _ hm']
  simp only [Nat.zero_mul, Nat.zero_add]
  rw [parseFixedAux_render 2 d 0 _ hd']
  simp only [Nat.zero_mul, Nat.zero_add]
  rw [if_neg (by simp), if_neg (not_not_intro ⟨hm1, hm2⟩),
    if_neg (not_not_intro ⟨hd1, hd2⟩)]

/-- Claim C8: `isoTimeTransform` maps the null input to a null output with
no error, and an in-range date to the timestamp at midnight UTC of that
date. -/
theorem isoTimeTransform_spec :
    isoTimeTransform none = .ok none ∧
    ∀ t : ISOTime, t.year ≤ 9999 → 1 ≤ t.month → t.month ≤ 12 → 1 ≤ t.day →
      t.day ≤ daysInMonth t.year t.month →
      isoTimeTransform (some t) =
        .ok (some ⟨t.year, t.month, t.day, 0, 0, 0, "UTC"⟩) := by
  refine ⟨rfl, ?_⟩
  intro t hy hm1 hm2 hd1 hd2
  show (timeParseDateOnly t.render).map some = _
  rw [timeParseDateOnly_render t hy hm1 hm2 hd1 hd2]
  rfl

/-- Witness for C8: the transform at the concrete date 2021-02-14. -/
theorem isoTimeTransform_spec_witness :
    isoTimeTransform (some ⟨2021, 2, 14⟩) =
      .ok (some ⟨2021, 2, 14, 0, 0, 0, "UTC"⟩) :=
  isoTimeTransform_spec.2 ⟨2021, 2, 14⟩ (by norm_num) (by norm_num) (by norm_num)
    (by norm_num) (by decide)

/-- The translator `addOptionalIssueQuals` never touches scope, page, or page size. -/
theorem addOptionalIssueQuals_preserves (opts : ListIssuesOptions) (q : Quals) :
    (addOptionalIssueQuals opts q).page = opts.page ∧
    (addOptionalIssueQuals opts q).perPage = opts.perPage ∧
    (addOptionalIssueQuals opts q).scope = opts.scope := by
  unfold addOptionalIssueQuals
  cases q "assignee" <;> cases q "assignee_id" <;> cases q "author_id" <;>
    cases q "confidential" <;> cases q "search_string" <;> exact ⟨rfl, rfl, rfl⟩

/-- The translator `addOptionalProjectIssueQuals` never touches scope, page, or page size. -/
theorem addOptionalProjectIssueQuals_preserves (opts : ListProjectIssuesOptions) (q : Quals) :
    (addOptionalProjectIssueQuals opts q).page = opts.page ∧
    (addOptionalProjectIssueQuals opts q).perPage = opts.perPage ∧
    (addOptionalProjectIssueQuals opts q).scope = opts.scope := by
  unfold addOptionalProjectIssueQuals
  cases q "assignee" <;> cases q "assignee_id" <;> cases q "author_id" <;>
    cases q "confidential" <;> cases q "search_string" <;> exact ⟨rfl, rfl, rfl⟩
/-- Unfolding equation for `listProjectsLoop` when the upstream call
succeeds. -/
theorem listProjectsLoop_succ_ok
    (srv : ListProjectsOptions → Except String (PageResp Project))
    (opt : ListProjectsOptions) (fuel : Nat) (r : PageResp Project)
    (h : srv opt = .ok r) :
    listProjectsLoop srv opt (fuel + 1) =
      if r.nextPage = 0 then ⟨[opt], r.items, .done⟩
      else
        ⟨opt :: (listProjectsLoop srv { opt with page := r.nextPage } fuel).requests,
         r.items ++ (listProjectsLoop srv { opt with page := r.nextPage } fuel).streamed,
         (listProjectsLoop srv { opt with page := r.nextPage } fuel).outcome⟩ := by
  conv_lhs => rw [listProjectsLoop]
  rw [h]

/-- The `listProjects` pagination loop, run against a server whose
responses on the visited chain of pages succeed, issues exactly the calls
of the chain (page advanced each time, everything else kept), streams every
page's items in order, and ends normally after the page whose next-page
indicator is zero. -/
theorem listProjectsLoop_chain
    (srv : ListProjectsOptions → Except String (PageResp Project))
    (resp : Nat → PageResp Project) (opt : ListProjectsOptions) :
    ∀ (ps : List Nat) (fuel : Nat) (hne : ps ≠ []),
      (∀ p ∈ ps, srv { opt with page := p } = .ok (resp p)) →
      ps.Chain' (fun a b => (resp a).nextPage = b) →
      (∀ p ∈ ps.tail, p ≠ 0) →
      (resp (ps.getLast hne)).nextPage = 0 →
      ps.length ≤ fuel →
      listProjectsLoop srv { opt with page := ps.head hne } fuel =
        ⟨ps.map (fun p => { opt with page := p }),
         (ps.map (fun p => (resp p).items)).flatten, .done⟩ := by
  intro ps
  induction ps with
  | nil => intro fuel hne; exact absurd rfl hne
  | cons a t ih =>
    intro fuel hne hsrv hchain htail hlast hfuel
    obtain ⟨fuel, rfl⟩ : ∃ f, fuel = f + 1 := ⟨fuel - 1, by simp at hfuel; omega⟩
    rw [show ((a :: t).head hne) = a from rfl]
    rw [listProjectsLoop_succ_ok srv _ fuel (resp a) (hsrv a (by simp))]
    cases t with
    | nil =>
      simp only [List.getLast_singleton] at hlast
      rw [if_pos hlast]
      simp
    | cons b t' =>
      have hab : (resp a).nextPage = b := (List.chain'_cons.mp hchain).1
      have hb0 : b ≠ 0 := htail b (by simp)
      rw [if_neg (by rw [hab]; exact hb0)]
      rw [hab]
      have hrest := ih fuel (by simp)
        (fun p hp => hsrv p (List.mem_cons_of_mem a hp))
        (List.chain'_cons.mp hchain).2
        (fun p hp => htail p (List.mem_cons_of_mem b hp))
        (by rw [← List.getLast_cons (by simp : (b :: t') ≠ [])]; exact hlast)
        (by simp at hfuel ⊢; omega)
      rw [show ((b :: t').head (by simp)) = b from rfl] at hrest
      rw [show ({ page := a, perPage := opt.perPage } : ListProjectsOptions).perPage =
            opt.perPage from rfl]
      rw [hrest]
      rfl

/-- Unfolding equation for `listAllIssuesLoop` when the upstream call
succeeds. -/
theorem listAllIssuesLoop_succ_ok (api : IssuesApi) (opt : ListIssuesOptions)
    (fuel : Nat) (r : PageResp Issue) (h : api.listIssuesEp opt = .ok r) :
    listAllIssuesLoop api opt (fuel + 1) =
      if r.nextPage = 0 then ⟨[.instanceWide opt], r.items, .done⟩
      else
        ⟨.instanceWide opt ::
           (listAllIssuesLoop api { opt with page := r.nextPage } fuel).requests,
         r.items ++ (listAllIssuesLoop api { opt with page := r.nextPage } fuel).streamed,
         (listAllIssuesLoop api { opt with page := r.nextPage } fuel).outcome⟩ := by
  conv_lhs => rw [listAllIssuesLoop]
  rw [h]

/-- The `listAllIssues` pagination loop satisfies the same chain property
as the `listProjects` one: one instance-wide call per page of the chain,
page advanced each time and every other option field kept, all items
streamed in order, normal end at indicator zero. -/
theorem listAllIssuesLoop_chain (api : IssuesApi)
    (resp : Nat → PageResp Issue) (opt : ListIssuesOptions) :
    ∀ (ps : List Nat) (fuel : Nat) (hne : ps ≠ []),
      (∀ p ∈ ps, api.listIssuesEp { opt with page := p } = .ok (resp p)) →
      ps.Chain' (fun a b => (resp a).nextPage = b) →
      (∀ p ∈ ps.tail, p ≠ 0) →
      (resp (ps.getLast hne)).nextPage = 0 →
      ps.length ≤ fuel →
      listAllIssuesLoop api { opt with page := ps.head hne } fuel =
        ⟨ps.map (fun p => .instanceWide { opt with page := p }),
         (ps.map (fun p => (resp p).items)).flatten, .done⟩ := by
  intro ps
  induction ps with
  | nil => intro fuel hne; exact absurd rfl hne
  | cons a t ih =>
    intro fuel hne hsrv hchain htail hlast hfuel
    obtain ⟨fuel, rfl⟩ : ∃ f, fuel = f + 1 := ⟨fuel - 1, by simp at hfuel; omega⟩
    rw [show ((a :: t).head hne) = a from rfl]
    rw [listAllIssuesLoop_succ_ok api _ fuel (resp a) (hsrv a (by simp))]
    cases t with
    | nil =>
      simp only [List.getLast_singleton] at hlast
      rw [if_pos hlast]
      simp
    | cons b t' =>
      have hab : (resp a).nextPage = b := (List.chain'_cons.mp hchain).1
      have hb0 : b ≠ 0 := htail b (by simp)
      rw [if_neg (by rw [hab]; exact hb0)]
      rw [hab]
      have hrest := ih fuel (by simp)
        (fun p hp => hsrv p (List.mem_cons_of_mem a hp))
        (List.chain'_cons.mp hchain).2
        (fun p hp => htail p (List.mem_cons_of_mem b hp))
        (by rw [← List.getLast_cons (by simp : (b :: t') ≠ [])]; exact hlast)
        (by simp at hfuel ⊢; omega)
      rw [show ((b :: t').head (by simp)) = b from rfl] at hrest
      rw [show ({ opt with page := a } : ListIssuesOptions).scope = opt.scope from rfl,
          show ({ opt with page := a } : ListIssuesOptions).assigneeUsername =
            opt.assigneeUsername from rfl,
          show ({ opt with page := a } : ListIssuesOptions).assigneeID =
            opt.assigneeID from rfl,
          show ({ opt with page := a } : ListIssuesOptions).authorID =
            opt.authorID from rfl,
          show ({ opt with page := a } : ListIssuesOptions).confidential =
            opt.confidential from rfl,
          show ({ opt with page := a } : ListIssuesOptions).search = opt.search from rfl,
          show ({ opt with page := a } : ListIssuesOptions).perPage = opt.perPage from rfl]
      rw [hrest]
      rfl

/-- Unfolding equation for `listProjectIssuesLoop` when the upstream call
fails. -/
theorem listProjectIssuesLoop_succ_err (api : IssuesApi) (pid : Int)
    (opt : ListProjectIssuesOptions) (fuel : Nat) (e : String)
    (h : api.listProjectIssuesEp pid {} = .error e) :
    listProjectIssuesLoop api pid opt (fuel + 1) =
      ⟨[.perProject pid {}], [], .failed e⟩ := by
  conv_lhs => rw [listProjectIssuesLoop]
  rw [h]

/-- Unfolding equation for `listProjectIssuesLoop` when the upstream call
succeeds. -/
theorem listProjectIssuesLoop_succ_ok (api : IssuesApi) (pid : Int)
    (opt : ListProjectIssuesOptions) (fuel : Nat) (r : PageResp Issue)
    (h : api.listProjectIssuesEp pid {} = .ok r) :
    listProjectIssuesLoop api pid opt (fuel + 1) =
      if r.nextPage = 0 then ⟨[.perProject pid {}], r.items, .done⟩
      else
        ⟨.perProject pid {} ::
           (listProjectIssuesLoop api pid { opt with page := r.nextPage } fuel).requests,
         r.items ++
           (listProjectIssuesLoop api pid { opt with page := r.nextPage } fuel).streamed,
         (listProjectIssuesLoop api pid { opt with page := r.nextPage } fuel).outcome⟩ := by
  conv_lhs => rw [listProjectIssuesLoop]
  rw [h]

/-- Every upstream request the `listProjectIssues` loop ever issues is the
per-project endpoint applied to the zero-value options. -/
theorem listProjectIssuesLoop_requests (api : IssuesApi) (pid : Int) :
    ∀ (fuel : Nat) (opt : ListProjectIssuesOptions) (c : IssueApiCall),
      c ∈ (listProjectIssuesLoop api pid opt fuel).requests →
      c = .perProject pid {} := by
  intro fuel
  induction fuel with
  | zero =>
    intro opt c hc
    simp only [listProjectIssuesLoop, List.not_mem_nil] at hc
  | succ fuel ih =>
    intro opt c hc
    cases hep : api.listProjectIssuesEp pid {} with
    | error e =>
      rw [listProjectIssuesLoop_succ_err api pid opt fuel e hep] at hc
      simpa using hc
    | ok r =>
      rw [listProjectIssuesLoop_succ_ok api pid opt fuel r hep] at hc
      by_cases h0 : r.nextPage = 0
      · rw [if_pos h0] at hc
        simpa using hc
      · rw [if_neg h0] at hc
        rcases List.mem_cons.mp hc with rfl | hmem
        · rfl
        · exact ih _ c hmem

/-- Setting the page field to its current value is the identity. -/
theorem ListIssuesOptions_set_page_self (o : ListIssuesOptions) (n : Nat)
    (hp : o.page = n) : ({ o with page := n } : ListIssuesOptions) = o := by
  rw [← hp]

/-- Claim C3 (amended): for `listProjects` and the instance-wide issue
listing `listAllIssues` — the two handlers whose loops pass their options
upstream — when the upstream endpoint answers the visited chain of pages
(head 1, each next-page indicator naming the next page, the last indicator
zero), the handler starts at page 1 with page size 50, issues exactly one
upstream call per page (with only the page number advancing), streams every
item of every page in upstream order, and terminates after observing
next-page indicator 0.  The per-project issue listing path does not follow
this pattern (see the counterexample): it sends a fresh zero-value options
struct on every call, so it never requests successive pages. -/
theorem pagination_spec :
    (∀ (env : Env) (cfg : GitlabConfig)
       (srv : ListProjectsOptions → Except String (PageResp Project))
       (resp : Nat → PageResp Project) (ps : List Nat) (fuel : Nat)
       (hne : ps ≠ []) (c : Client),
       connect env cfg = .ok c →
       ps.head hne = 1 →
       (∀ p ∈ ps.tail, p ≠ 0) →
       (∀ p ∈ ps, srv { page := p, perPage := 50 } = .ok (resp p)) →
       ps.Chain' (fun a b => (resp a).nextPage = b) →
       (resp (ps.getLast hne)).nextPage = 0 →
       ps.length ≤ fuel →
       listProjects env cfg srv fuel =
         ⟨ps.map (fun p => { page := p, perPage := 50 }),
          (ps.map (fun p => (resp p).items)).flatten, .done⟩) ∧
    (∀ (env : Env) (cfg : GitlabConfig) (q : Quals) (api : IssuesApi)
       (resp : Nat → PageResp Issue) (ps : List Nat) (fuel : Nat)
       (hne : ps ≠ []) (c : Client),
       connect env cfg = .ok c →
       ps.head hne = 1 →
       (∀ p ∈ ps.tail, p ≠ 0) →
       (∀ p ∈ ps, api.listIssuesEp
           { addOptionalIssueQuals { scope := some "all", page := 1, perPage := 50 } q
               with page := p } = .ok (resp p)) →
       ps.Chain' (fun a b => (resp a).nextPage = b) →
       (resp (ps.getLast hne)).nextPage = 0 →
       ps.length ≤ fuel →
       listAllIssues env cfg q api fuel =
         ⟨ps.map (fun p => .instanceWide
             { addOptionalIssueQuals { scope := some "all", page := 1, perPage := 50 } q
                 with page := p }),
          (ps.map (fun p => (resp p).items)).flatten, .done⟩ ∧
       (addOptionalIssueQuals { scope := some "all", page := 1, perPage := 50 } q).perPage
         = 50) := by
  constructor
  · intro env cfg srv resp ps fuel hne c hconn hhead htail hsrv hchain hlast hfuel
    have h := listProjectsLoop_chain srv resp { page := 1, perPage := 50 } ps fuel hne
      hsrv hchain htail hlast hfuel
    rw [hhead] at h
    unfold listProjects
    rw [hconn]
    exact h
  · intro env cfg q api resp ps fuel hne c hconn hhead htail hsrv hchain hlast hfuel
    have hpage :
        (addOptionalIssueQuals { scope := some "all", page := 1, perPage := 50 } q).page
          = 1 :=
      (addOptionalIssueQuals_preserves _ q).1
    have h := listAllIssuesLoop_chain api resp
      (addOptionalIssueQuals { scope := some "all", page := 1, perPage := 50 } q)
      ps fuel hne hsrv hchain htail hlast hfuel
    rw [hhead] at h
    rw [ListIssuesOptions_set_page_self _ 1 hpage] at h
    refine ⟨?_, (addOptionalIssueQuals_preserves _ q).2.1⟩
    unfold listAllIssues
    rw [hconn]
    exact h

/-- Witness for C3: both conforming handlers run against a concrete
three-page server with next-page chain 1 → 2 → 3 → 0: three calls, pages
1, 2, 3 at size 50, all items streamed in order, normal termination. -/
theorem pagination_spec_witness :
    listProjects envSelfHosted cfgEmpty srvProjectsPaged 3 =
      ⟨[{ page := 1, perPage := 50 }, { page := 2, perPage := 50 },
        { page := 3, perPage := 50 }],
       [⟨1⟩, ⟨2⟩, ⟨3⟩, ⟨4⟩], .done⟩ ∧
    listAllIssues envSelfHosted cfgEmpty qualsNone apiIssuesPaged 3 =
      ⟨[.instanceWide { scope := some "all", page := 1, perPage := 50 },
        .instanceWide { scope := some "all", page := 2, perPage := 50 },
        .instanceWide { scope := some "all", page := 3, perPage := 50 }],
       [⟨1⟩, ⟨2⟩, ⟨3⟩, ⟨4⟩], .done⟩ := by
  constructor
  · exact pagination_spec.1 envSelfHosted cfgEmpty srvProjectsPaged respProjects
      [1, 2, 3] 3 (by decide) ⟨"https://gitlab.example.com/api/v4", "token123"⟩
      rfl rfl (by decide)
      (by intro p hp; simp at hp; rcases hp with rfl | rfl | rfl <;> rfl)
      (by simp [List.chain'_cons, respProjects]) rfl (by decide)
  · exact (pagination_spec.2 envSelfHosted cfgEmpty qualsNone apiIssuesPaged respIssues
      [1, 2, 3] 3 (by decide) ⟨"https://gitlab.example.com/api/v4", "token123"⟩
      rfl rfl (by decide)
      (by intro p hp; simp at hp; rcases hp with rfl | rfl | rfl <;> rfl)
      (by simp [List.chain'_cons, respIssues]) rfl (by decide)).1

/-- Claim C3 counterexample: against the same three-page upstream
behavior (page 0 answered like page 1, as the hosted API does), the
per-project issue listing path does not paginate: at fuel 10 it has issued
10 identical calls — all with the zero-value options, so never page 2 or
3 — and has not terminated, where the claim predicts exactly 3 calls and
termination. -/
theorem listProjectIssues_pagination_counterexample :
    (listProjectIssues envSelfHosted cfgEmpty qualsProject42 apiIssuesPaged 10).requests
      = List.replicate 10 (.perProject 42 {}) ∧
    (listProjectIssues envSelfHosted cfgEmpty qualsProject42 apiIssuesPaged 10).outcome
      = .outOfFuel ∧
    (listProjectIssues envSelfHosted cfgEmpty qualsProject42 apiIssuesPaged 10).requests.length
      ≠ 3 := by
  refine ⟨?_, ?_, ?_⟩ <;> decide

/-- When a `project_id` qual is supplied, every upstream request of
`listProjectIssues` targets that project with the zero-value options. -/
theorem listProjectIssues_requests_all_empty (env : Env) (cfg : GitlabConfig)
    (q : Quals) (api : IssuesApi) (fuel : Nat) (v : QualValue)
    (hv : q "project_id" = some v) :
    ∀ c ∈ (listProjectIssues env cfg q api fuel).requests,
      c = .perProject v.getInt64Value {} := by
  intro c hc
  revert hc
  unfold listProjectIssues
  cases hconn : connect env cfg with
  | error e => simp
  | ok cl =>
    simp only [hv]
    exact listProjectIssuesLoop_requests api _ fuel _ c

/-- Claim C4: on the per-project issue listing path, the options object
built from the predicates is never sent upstream: when `project_id` is
absent no upstream call happens at all, and when it is present every
upstream call carries the fresh zero-value options (scope, filters, page,
and page size all zero-valued) — while the constructed options object is
never equal to that zero value, whatever the predicates. -/
theorem listProjectIssues_ignores_built_options (env : Env) (cfg : GitlabConfig)
    (q : Quals) (api : IssuesApi) (fuel : Nat) :
    (q "project_id" = none → (listProjectIssues env cfg q api fuel).requests = []) ∧
    (∀ v, q "project_id" = some v →
      ∀ c ∈ (listProjectIssues env cfg q api fuel).requests,
        c = .perProject v.getInt64Value {}) ∧
    (∀ q' : Quals,
      addOptionalProjectIssueQuals { scope := some "all", page := 1, perPage := 50 } q' ≠
        ({} : ListProjectIssuesOptions)) := by
  refine ⟨?_, ?_, ?_⟩
  · intro hq
    unfold listProjectIssues
    cases hconn : connect env cfg with
    | error e => rfl
    | ok cl =>
      simp only [hq]
  · intro v hv
    exact listProjectIssues_requests_all_empty env cfg q api fuel v hv
  · intro q' hcontra
    have hscope := (addOptionalProjectIssueQuals_preserves
      { scope := some "all", page := 1, perPage := 50 } q').2.2
    rw [hcontra] at hscope
    simp at hscope

/-- Witness for C4: a concrete run with no `project_id` qual makes no
upstream call, and in a concrete run with `project_id = 42` the single
upstream call issued carries the zero-value options targeting 42. -/
theorem listProjectIssues_ignores_built_options_witness :
    (listProjectIssues envSelfHosted cfgEmpty qualsNone apiIssuesOnePage 1).requests
      = [] ∧
    IssueApiCall.perProject 42 {} =
      .perProject ((QualValue.ofInt 42).getInt64Value) {} :=
  ⟨(listProjectIssues_ignores_built_options envSelfHosted cfgEmpty qualsNone
      apiIssuesOnePage 1).1 rfl,
   (listProjectIssues_ignores_built_options envSelfHosted cfgEmpty qualsProject42
      apiIssuesOnePage 1).2.1 (.ofInt 42) rfl (.perProject 42 {}) (by decide)⟩

/-- Claim C5: an issue list call that passes the hosted-deployment guard
routes to the dedicated per-project listing path — whose every upstream
call targets the supplied project — when a `project_id` equality qual is
present, and to the instance-wide listing path when it is absent. -/
theorem listIssues_routing (env : Env) (cfg : GitlabConfig) (q : Quals)
    (api : IssuesApi) (fuel : Nat)
    (hguard : ¬(q "assignee" = none ∧ q "assignee_id" = none ∧
      q "author_id" = none ∧ q "project_id" = none ∧ isGitlabCloud cfg = true)) :
    (q "project_id" ≠ none →
      listIssues env cfg q api fuel = listProjectIssues env cfg q api fuel) ∧
    (∀ v, q "project_id" = some v →
      ∀ c ∈ (listIssues env cfg q api fuel).requests,
        c = .perProject v.getInt64Value {}) ∧
    (q "project_id" = none →
      listIssues env cfg q api fuel = listAllIssues env cfg q api fuel) := by
  have hroute : listIssues env cfg q api fuel =
      if q "project_id" ≠ none then listProjectIssues env cfg q api fuel
      else listAllIssues env cfg q api fuel := by
    unfold listIssues
    rw [if_neg hguard]
  refine ⟨?_, ?_, ?_⟩
  · intro hp
    rw [hroute, if_pos hp]
  · intro v hv c hc
    rw [hroute, if_pos (by rw [hv]; exact Option.some_ne_none v)] at hc
    exact listProjectIssues_requests_all_empty env cfg q api fuel v hv c hc
  · intro hp
    rw [hroute, if_neg (by simp [hp])]

/-- Witness for C5: concrete runs of both routes. -/
theorem listIssues_routing_witness :
    listIssues envSelfHosted cfgEmpty qualsProject42 apiIssuesOnePage 1 =
      listProjectIssues envSelfHosted cfgEmpty qualsProject42 apiIssuesOnePage 1 ∧
    listIssues envSelfHosted cfgEmpty qualsNone apiIssuesOnePage 1 =
      listAllIssues envSelfHosted cfgEmpty qualsNone apiIssuesOnePage 1 :=
  ⟨(listIssues_routing envSelfHosted cfgEmpty qualsProject42 apiIssuesOnePage 1
      (fun h => absurd h.2.2.2.1 (by decide))).1 (by decide),
   (listIssues_routing envSelfHosted cfgEmpty qualsNone apiIssuesOnePage 1
      (fun h => absurd h.2.2.2.2 (by decide))).2.2 rfl⟩

/-- Claim C1 counterexample: with the hosted endpoint configured only via
the `GITLAB_ADDR` environment value (no connection-config base URL), the
target deployment is hosted (the resolved base address equals the hosted
endpoint) and no guarded qual is supplied, yet the list call does not
return the unsupported-query error and makes one upstream call rather than
zero — the guard only fires on the connection-config base URL. -/
theorem listIssues_cloud_guard_counterexample :
    specResolvedBaseUrl envHosted cfgEmpty = GitlabCloudApiUrl ∧
    qualsNone "assignee" = none ∧ qualsNone "assignee_id" = none ∧
    qualsNone "author_id" = none ∧ qualsNone "project_id" = none ∧
    (listIssues envHosted cfgEmpty qualsNone apiIssuesOnePage 1).requests.length = 1 ∧
    (listIssues envHosted cfgEmpty qualsNone apiIssuesOnePage 1).outcome ≠
      .failed cloudGuardErrMsg := by
  refine ⟨rfl, rfl, rfl, rfl, rfl, ?_, ?_⟩ <;> decide

/-- Claim C1 (amended): for every issue list call whose connection-config
base URL equals the hosted multi-tenant endpoint, supplying none of the
`assignee`, `assignee_id`, `author_id`, `project_id` equality quals
returns the descriptive unsupported-query error with zero upstream calls;
supplying any one of those four lets the call proceed past the guard to
the routed listing path.  (The hosted address supplied only through the
environment does not trigger the guard; see the counterexample.) -/
theorem listIssues_cloud_guard (env : Env) (cfg : GitlabConfig) (q : Quals)
    (api : IssuesApi) (fuel : Nat) :
    (cfg.baseUrl = some GitlabCloudApiUrl → q "assignee" = none →
      q "assignee_id" = none → q "author_id" = none → q "project_id" = none →
      listIssues env cfg q api fuel = ⟨[], [], .failed cloudGuardErrMsg⟩) ∧
    ((q "assignee" ≠ none ∨ q "assignee_id" ≠ none ∨ q "author_id" ≠ none ∨
        q "project_id" ≠ none) →
      listIssues env cfg q api fuel =
        if q "project_id" ≠ none then listProjectIssues env cfg q api fuel
        else listAllIssues env cfg q api fuel) := by
  constructor
  · intro hb h1 h2 h3 h4
    have hc : isGitlabCloud cfg = true := by simp [isGitlabCloud, hb]
    unfold listIssues
    rw [if_pos ⟨h1, h2, h3, h4, hc⟩]
  · intro hor
    have hng : ¬(q "assignee" = none ∧ q "assignee_id" = none ∧
        q "author_id" = none ∧ q "project_id" = none ∧ isGitlabCloud cfg = true) := by
      rcases hor with h | h | h | h <;> exact fun hall => h (by tauto)
    unfold listIssues
    rw [if_neg hng]

/-- Witness for C1: with the hosted endpoint in the connection config, the
bare call fails with the guard error, and an `assignee` qual lets it
proceed to the instance-wide path. -/
theorem listIssues_cloud_guard_witness :
    listIssues envSelfHosted cfgHosted qualsNone apiIssuesOnePage 1 =
      ⟨[], [], .failed cloudGuardErrMsg⟩ ∧
    listIssues envSelfHosted cfgHosted qualsAssigneeAlice apiIssuesOnePage 1 =
      listAllIssues envSelfHosted cfgHosted qualsAssigneeAlice apiIssuesOnePage 1 := by
  constructor
  · exact (listIssues_cloud_guard envSelfHosted cfgHosted qualsNone
      apiIssuesOnePage 1).1 rfl rfl rfl rfl rfl
  · have h := (listIssues_cloud_guard envSelfHosted cfgHosted qualsAssigneeAlice
      apiIssuesOnePage 1).2 (Or.inl (by decide))
    rw [if_neg (by decide)] at h
    exact h
